import Mathlib

/-!
Verification of the `llm_engineering` week1 scripts.

The definitions below are shallow embeddings of the Python sources:

* `src/week1/convo_app.py` — the two-party alternating conversation driver
  (`ModelConversation.run_conversation`, `_format_conversation_history`) and
  the transcript persistence in `main`.
* `src/week1/client_open_ai.py` — API-key validation and completion wrapping.
* `src/week1/client_ollama.py` — completion wrapping and model-availability check.
* `src/week1/webscraper.py` — `Website._extract_links`.

External effects (LLM backends, HTTP, the file system) are modelled as
explicit oracle parameters; pure logic is translated function by function.
-/

namespace LlmEng

/-- A transcript entry, embedding the Python dict
`{"speaker": ..., "message": ...}` appended to `conversation_history`. -/
structure Entry where
  speaker : String
  message : String
  deriving DecidableEq

/-- One conversation participant: the `(client, model_name, system_prompt,
character_name)` tuple of `ModelConversation` minus the client object, whose
behaviour is modelled by the completion oracle passed to the run function. -/
structure Participant where
  modelName : String
  systemPrompt : String
  charName : String

/-- Embeds `ModelConversation._format_conversation_history`: starts from the
empty string and appends `"{speaker}: {message}\n"` for each entry in order. -/
def formatConversationHistory (history : List Entry) : String :=
  history.foldl (fun formatted e => formatted ++ e.speaker ++ ": " ++ e.message ++ "\n") ""

/-- Embeds the `user_prompt` construction in `run_conversation` (lines 53-56):
two formatted pieces concatenated. -/
def mkUserPrompt (maxChars : Nat) (conversationText : String) : String :=
  ("Here's the conversation so far:\n" ++ conversationText ++ "\n") ++
    ("Please provide your response. Keep it under " ++ toString maxChars ++ " characters:")

/-- Embeds the truncation step of `run_conversation` (lines 66-68):
`if len(response) > self.max_chars: response = response[:self.max_chars] + "..."`.
Python slicing is by characters, as is `String.take`. -/
def truncateResponse (maxChars : Nat) (response : String) : String :=
  if maxChars < response.length then response.take maxChars ++ "..." else response

/-- Embeds the turn loop of `ModelConversation.run_conversation`
(lines 46-81).  The first argument counts the remaining turns, the second is
the current value of the loop variable `turn`, the third is
`conversation_history`.  `oracle t p` models the external
`current_model[0].get_completion(...)` call made on turn `t` with user prompt
`p` (the system prompt and model name are the active participant's own and are
determined by `t`); `Except.error` models the call raising an exception, which
breaks the loop.  The second component of the result records the user prompt
passed to each `get_completion` call, in order (pure instrumentation: the
Python code sends exactly these prompts). -/
def runTurns (model1 model2 : Participant) (maxChars : Nat)
    (oracle : Nat → String → Except String String) :
    Nat → Nat → List Entry → List Entry × List String
  | 0, _, history => (history, [])
  | n + 1, turn, history =>
    let currentModel := if turn % 2 = 0 then model1 else model2
    let speaker := currentModel.charName
    let conversationText := formatConversationHistory history
    let userPrompt := mkUserPrompt maxChars conversationText
    match oracle turn userPrompt with
    | Except.error _ => (history, [userPrompt])
    | Except.ok response =>
      let rest := runTurns model1 model2 maxChars oracle n (turn + 1)
        (history ++ [{ speaker := speaker, message := truncateResponse maxChars response }])
      (rest.1, userPrompt :: rest.2)

/-- Embeds `ModelConversation.run_conversation` (lines 36-83): seeds the
history with the Moderator entry carrying the initial prompt, then runs the
turn loop and returns the final `conversation_history`. -/
def run_conversation (model1 model2 : Participant) (initialPrompt : String)
    (turns maxChars : Nat) (oracle : Nat → String → Except String String) : List Entry :=
  (runTurns model1 model2 maxChars oracle turns 0
    [{ speaker := "Moderator", message := initialPrompt }]).1

/-- The user prompts sent to `get_completion`, in call order, during the same
run embedded by `run_conversation`. -/
def sentPrompts (model1 model2 : Participant) (initialPrompt : String)
    (turns maxChars : Nat) (oracle : Nat → String → Except String String) : List String :=
  (runTurns model1 model2 maxChars oracle turns 0
    [{ speaker := "Moderator", message := initialPrompt }]).2

/-- The spec's rendering of a transcript: one `"{speaker}: {message}\n"` line
per entry, in transcript order. -/
def lineBlock : List Entry → String
  | [] => ""
  | e :: rest => (e.speaker ++ ": " ++ e.message ++ "\n") ++ lineBlock rest

/-! ## Provider clients -/

/-- Python exception classes relevant to the provider clients:
`requests.RequestException` (with its message), `KeyError` (with the missing
key), and a generic `Exception` (with its message). -/
inductive PyErr where
  | requestException (msg : String)
  | keyError (key : String)
  | exception (msg : String)
  deriving DecidableEq

/-- The HTTP environment an `OllamaClient.get_completion` call runs against.
For each endpoint, `Except.error m` models `requests` raising a
`RequestException` with message `m` (connection failure, `raise_for_status`
on a bad status, or a JSON decode failure, which `requests` raises as a
`RequestException` subclass); `Except.ok none` models a successful response
whose decoded JSON object lacks the required key, so that subscripting it
raises `KeyError`; `Except.ok (some v)` is a well-formed response.
`tagsResult` is `GET /api/tags` yielding the local model names,
`pullResult` is `POST /api/pull` for a model, and `generateResult` is
`POST /api/generate` for a combined prompt, yielding the `response` field. -/
structure OllamaEnv where
  tagsResult : Except String (Option (List String))
  pullResult : String → Except String Unit
  generateResult : String → Except String (Option String)

/-- Embeds `OllamaClient._ensure_model` (client_ollama.py lines 29-51): reads
the tag list, pulls the model when absent, and — via
`except requests.RequestException` — re-raises any `RequestException` as a
generic `Exception` prefixed with the availability message.  A `KeyError`
from `response.json()['models']` is not a `RequestException` and escapes
unwrapped. -/
def ensure_model (env : OllamaEnv) (model : String) : Except PyErr Unit :=
  let body : Except PyErr Unit :=
    match env.tagsResult with
    | Except.error m => Except.error (PyErr.requestException m)
    | Except.ok none => Except.error (PyErr.keyError "models")
    | Except.ok (some models) =>
      if model ∈ models then Except.ok ()
      else
        match env.pullResult model with
        | Except.error m => Except.error (PyErr.requestException m)
        | Except.ok _ => Except.ok ()
  match body with
  | Except.error (PyErr.requestException m) =>
      Except.error (PyErr.exception ("Error ensuring model availability: " ++ m))
  | other => other

/-- Embeds `OllamaClient.get_completion` (client_ollama.py lines 53-100):
ensures the model, posts the combined `"{system}\n\n{user}"` prompt to
`/api/generate`, extracts `result['response']`, and — via
`except requests.RequestException` — wraps a `RequestException` raised in its
own `try` block in a generic `Exception` with the completion message.
Errors already converted to generic `Exception` by `_ensure_model`, and
`KeyError` from the JSON access, pass through unchanged. -/
def ollamaGetCompletion (env : OllamaEnv) (systemPrompt userPrompt model : String) :
    Except PyErr String :=
  let body : Except PyErr String :=
    match ensure_model env model with
    | Except.error e => Except.error e
    | Except.ok _ =>
      let combinedPrompt := systemPrompt ++ "\n\n" ++ userPrompt
      match env.generateResult combinedPrompt with
      | Except.error m => Except.error (PyErr.requestException m)
      | Except.ok none => Except.error (PyErr.keyError "response")
      | Except.ok (some response) => Except.ok response
  match body with
  | Except.error (PyErr.requestException m) =>
      Except.error (PyErr.exception ("Error getting completion from Ollama: " ++ m))
  | other => other

/-- Embeds `OpenAIClient.get_completion` (client_open_ai.py lines 52-64).
The argument models the `chat.completions.create(...)` call together with
the `response.choices[0].message.content` extraction; its `except Exception`
catches every failure and re-raises it wrapped in the completion message. -/
def openAIGetCompletion (createResult : Except String String) : Except PyErr String :=
  match createResult with
  | Except.error m =>
      Except.error (PyErr.exception ("Error getting completion from OpenAI: " ++ m))
  | Except.ok content => Except.ok content

/-- Embeds `AnthropicClient.get_completion` (client_anthropic.py lines
54-68).  The argument models the `messages.create(...)` call together with
the `message.content[0].text` extraction; its `except Exception` catches
every failure and re-raises it wrapped in the completion message. -/
def anthropicGetCompletion (createResult : Except String String) : Except PyErr String :=
  match createResult with
  | Except.error m =>
      Except.error (PyErr.exception ("Error getting completion from Anthropic: " ++ m))
  | Except.ok content => Except.ok content

/-- The claim's notion of the completion-error kind for the Ollama client: a
generic `Exception` carrying the client's completion-failure message. -/
def isOllamaCompletionWrapped : PyErr → Bool
  | PyErr.exception m => m.startsWith "Error getting completion from Ollama: "
  | _ => false

/-- Embeds the key resolution of `OpenAIClient.__init__` (client_open_ai.py
line 14): `self.api_key = api_key or os.getenv('OPENAI_API_KEY')`.  `none`
models Python `None`; Python `or` falls back to the environment value both
when the argument is `None` and when it is the empty string (the only falsy
`str`). -/
def resolveApiKey (apiKey envKey : Option String) : Option String :=
  match apiKey with
  | some k => if k = "" then envKey else some k
  | none => envKey

/-- Embeds the raise condition of `OpenAIClient._validate_connection`
(client_open_ai.py lines 25-30), negated: `true` iff no `ValueError` is
raised.  Stated over the character list: Python's `not self.api_key.strip()`
holds iff every character is whitespace (vacuously for the empty string);
`' ' in key` and `'\t' in key` are single-character containment;
`key.startswith('sk-')` says the first three characters are `s`, `k`, `-`. -/
def apiKeyWellFormed (k : String) : Bool :=
  !(k.data.all (fun c => c.isWhitespace)) && !(k.data.contains ' ') &&
    !(k.data.contains '\t') && (k.data.take 3 == "sk-".data)

/-- Embeds `OpenAIClient.__init__` followed by `_validate_connection`:
`true` iff construction succeeds given the explicit argument and the
`OPENAI_API_KEY` environment value. -/
def openAIConstructionOk (apiKey envKey : Option String) : Bool :=
  match resolveApiKey apiKey envKey with
  | none => false
  | some k => apiKeyWellFormed k

/-- The resolution rule as C9 states it: the environment value is consulted
only when the explicit argument is `None`. -/
def claimResolveApiKey (apiKey envKey : Option String) : Option String :=
  match apiKey with
  | some k => some k
  | none => envKey

/-- C9's stated raise condition, over its own resolution rule. -/
def claimConstructionRaises (apiKey envKey : Option String) : Bool :=
  match claimResolveApiKey apiKey envKey with
  | none => true
  | some k => !(apiKeyWellFormed k)

/-! ## Webscraper link extraction -/

/-- Embeds the href filter of `Website._extract_links` (webscraper.py line
139): `href.startswith(('javascript:', 'mailto:', '#'))`. -/
def skipHref (href : String) : Bool :=
  href.startsWith "javascript:" || href.startsWith "mailto:" || href.startsWith "#"

/-- Embeds `absolute_url.split('#')[0]` (webscraper.py line 146): the prefix
of the URL before its first `'#'`, i.e. the URL with any fragment removed. -/
def dropFragment (url : String) : String :=
  String.mk (url.data.takeWhile (fun c => c != '#'))

/-- Embeds the loop of `Website._extract_links` (webscraper.py lines
134-151).  `urljoin` abstracts `urllib.parse.urljoin` (standard-library URL
resolution, external to this repository); `links` is the accumulator the
Python loop appends to. -/
def extractLinksLoop (urljoin : String → String → String) (pageUrl : String) :
    List String → List String → List String
  | [], links => links
  | href :: rest, links =>
    if skipHref href then extractLinksLoop urljoin pageUrl rest links
    else
      let absoluteUrl := dropFragment (urljoin pageUrl href)
      if absoluteUrl ∈ links then extractLinksLoop urljoin pageUrl rest links
      else extractLinksLoop urljoin pageUrl rest (links ++ [absoluteUrl])

/-- Embeds `Website._extract_links`: runs the loop over the page's anchor
hrefs in document order, starting from an empty list. -/
def extract_links (urljoin : String → String → String) (pageUrl : String)
    (hrefs : List String) : List String :=
  extractLinksLoop urljoin pageUrl hrefs []

/-- The per-href resolution described by C10: skipped schemes filtered out,
each remaining href resolved against the page URL and cut at the first
fragment, in document order. -/
def resolvedHrefs (urljoin : String → String → String) (pageUrl : String)
    (hrefs : List String) : List String :=
  (hrefs.filter (fun h => !skipHref h)).map (fun h => dropFragment (urljoin pageUrl h))

/-- First-occurrence deduplication, relative to an already-seen set. -/
def keepFirsts (seen : List String) : List String → List String
  | [] => []
  | x :: xs => if x ∈ seen then keepFirsts seen xs else x :: keepFirsts (x :: seen) xs

/-! ## Transcript persistence -/

/-- Minimal JSON value AST for the persisted debate file. -/
inductive JValue where
  | jstr (s : String)
  | jnum (n : Nat)
  | jobj (fields : List (String × JValue))
  | jarr (elems : List JValue)

/-- Embeds the serialization of one transcript entry inside `json.dump` in
`main` (convo_app.py line 213): each history element is the dict
`{"speaker": ..., "message": ...}` in insertion order. -/
def entryToJson (e : Entry) : JValue :=
  JValue.jobj [("speaker", JValue.jstr e.speaker), ("message", JValue.jstr e.message)]

/-- Embeds the participant metadata objects of the dumped JSON (convo_app.py
lines 200-209). -/
def participantToJson (name model personality : String) : JValue :=
  JValue.jobj [("name", JValue.jstr name), ("model", JValue.jstr model),
    ("personality", JValue.jstr personality)]

/-- Embeds the object passed to `json.dump` in `main` (convo_app.py lines
197-214), with the transcript under the `"debate_log"` key. -/
def debateOutputJson (topic name1 mdl1 pers1 name2 mdl2 pers2 : String)
    (turns maxChars : Nat) (history : List Entry) : JValue :=
  JValue.jobj [
    ("debate_topic", JValue.jstr topic),
    ("participants", JValue.jobj [
      ("first_speaker", participantToJson name1 mdl1 pers1),
      ("second_speaker", participantToJson name2 mdl2 pers2)]),
    ("exchanges", JValue.jnum turns),
    ("char_limit", JValue.jnum maxChars),
    ("debate_log", JValue.jarr (history.map entryToJson))]

/-- Modelled from the spec: the repository only writes the debate file and
never reads it back, so deserialization has no source to embed.  This is
standard JSON object lookup (first binding of a key), as `json.load`
produces. -/
def getField (fields : List (String × JValue)) (key : String) : Option JValue :=
  match fields with
  | [] => none
  | (k, v) :: rest => if k = key then some v else getField rest key

/-- Modelled from the spec: reading one `{speaker, message}` pair back from
its JSON object. -/
def jsonToEntry (j : JValue) : Option Entry :=
  match j with
  | JValue.jobj fields =>
    match getField fields "speaker", getField fields "message" with
    | some (JValue.jstr s), some (JValue.jstr m) => some { speaker := s, message := m }
    | _, _ => none
  | _ => none

/-- Modelled from the spec: reading back a list of transcript entries. -/
def decodeEntries : List JValue → Option (List Entry)
  | [] => some []
  | j :: rest =>
    match jsonToEntry j, decodeEntries rest with
    | some e, some es => some (e :: es)
    | _, _ => none

/-- Modelled from the spec: deserializing the persisted debate object and
reconstructing the ordered `{speaker, message}` sequence stored under its
`"debate_log"` key. -/
def decodeDebateLog (j : JValue) : Option (List Entry) :=
  match j with
  | JValue.jobj fields =>
    match getField fields "debate_log" with
    | some (JValue.jarr elems) => decodeEntries elems
    | _ => none
  | _ => none

/-! ## Output file naming -/

/-- Embeds the glob `output_dir.glob('debate_*.json')` of `main`
(convo_app.py line 195): a name matches iff it begins with `debate_` and
ends with `.json`, the `*` matching anything in between; stated over the
character list. -/
def matchesDebateGlob (name : String) : Bool :=
  (name.data.take 7 == "debate_".data) && (name.data.reverse.take 5 == ".json".data.reverse)

/-- Embeds the output-file choice of `main` (convo_app.py line 195):
`f"debate_{len(list(output_dir.glob('debate_*.json'))) + 1}.json"`, with
`Nat.repr` embedding Python's decimal formatting of the count. -/
def chooseOutputFile (existing : List String) : String :=
  "debate_" ++ Nat.repr ((existing.filter matchesDebateGlob).length + 1) ++ ".json"

/-- The contiguous output state named by the amended C6: exactly
`debate_1.json` through `debate_n.json`. -/
def canonicalDebateFiles (n : Nat) : List String :=
  (List.range n).map (fun i => "debate_" ++ Nat.repr (i + 1) ++ ".json")

/-! ## Loop invariants of the turn loop -/

theorem runTurns_fst_append (model1 model2 : Participant) (maxChars : Nat)
    (oracle : Nat → String → Except String String) :
    ∀ (n turn : Nat) (history : List Entry),
      ∃ rest, (runTurns model1 model2 maxChars oracle n turn history).1 = history ++ rest := by
  intro n
  induction n with
  | zero => intro turn history; exact ⟨[], by simp [runTurns]⟩
  | succ n ih =>
    intro turn history
    simp only [runTurns]
    cases hor : oracle turn (mkUserPrompt maxChars (formatConversationHistory history)) with
    | error e => exact ⟨[], by simp⟩
    | ok response =>
      obtain ⟨rest, hrest⟩ := ih (turn + 1)
        (history ++ [{ speaker := (if turn % 2 = 0 then model1 else model2).charName,
                       message := truncateResponse maxChars response }])
      refine ⟨{ speaker := (if turn % 2 = 0 then model1 else model2).charName,
                message := truncateResponse maxChars response } :: rest, ?_⟩
      simp only []
      rw [hrest, List.append_assoc]
      simp

theorem runTurns_length_ok (model1 model2 : Participant) (maxChars : Nat)
    (oracle : Nat → String → Except String String) :
    ∀ (n turn : Nat) (history : List Entry),
      (∀ t p, t < n → ∃ r, oracle (turn + t) p = Except.ok r) →
      (runTurns model1 model2 maxChars oracle n turn history).1.length = history.length + n := by
  intro n
  induction n with
  | zero => intro turn history _; simp [runTurns]
  | succ n ih =>
    intro turn history hok
    simp only [runTurns]
    obtain ⟨r, hr⟩ := hok 0 (mkUserPrompt maxChars (formatConversationHistory history))
      (Nat.succ_pos n)
    rw [Nat.add_zero] at hr
    rw [hr]
    have := ih (turn + 1)
      (history ++ [{ speaker := (if turn % 2 = 0 then model1 else model2).charName,
                     message := truncateResponse maxChars r }])
      (fun t p ht => by
        have := hok (t + 1) p (Nat.succ_lt_succ ht)
        rwa [show turn + (t + 1) = turn + 1 + t by omega] at this)
    simp only [List.length_append, List.length_singleton] at this
    simp only [this]
    omega

theorem runTurns_getElem_ok (model1 model2 : Participant) (maxChars : Nat)
    (oracle : Nat → String → Except String String) :
    ∀ (n turn : Nat) (history : List Entry) (i : Nat), i < n →
      (∀ t p, t < n → ∃ r, oracle (turn + t) p = Except.ok r) →
      ∃ p r, oracle (turn + i) p = Except.ok r ∧
        (runTurns model1 model2 maxChars oracle n turn history).1[history.length + i]? =
          some { speaker := (if (turn + i) % 2 = 0 then model1 else model2).charName,
                 message := truncateResponse maxChars r } := by
  intro n
  induction n with
  | zero => intro turn history i hi; omega
  | succ n ih =>
    intro turn history i hi hok
    obtain ⟨r0, hr0⟩ := hok 0 (mkUserPrompt maxChars (formatConversationHistory history))
      (Nat.succ_pos n)
    rw [Nat.add_zero] at hr0
    set e0 : Entry := { speaker := (if turn % 2 = 0 then model1 else model2).charName,
                        message := truncateResponse maxChars r0 } with he0
    have hstep : (runTurns model1 model2 maxChars oracle (n + 1) turn history).1 =
        (runTurns model1 model2 maxChars oracle n (turn + 1) (history ++ [e0])).1 := by
      simp only [runTurns, hr0]
    cases i with
    | zero =>
      refine ⟨mkUserPrompt maxChars (formatConversationHistory history), r0, by simpa using hr0, ?_⟩
      rw [hstep]
      obtain ⟨rest, hrest⟩ := runTurns_fst_append model1 model2 maxChars oracle n (turn + 1)
        (history ++ [e0])
      rw [hrest, List.append_assoc, Nat.add_zero,
        List.getElem?_append_right (Nat.le_refl history.length)]
      simp [e0]
    | succ i =>
      have hok' : ∀ t p, t < n → ∃ r, oracle (turn + 1 + t) p = Except.ok r := fun t p ht => by
        have := hok (t + 1) p (Nat.succ_lt_succ ht)
        rwa [show turn + (t + 1) = turn + 1 + t by omega] at this
      obtain ⟨p, r, hpr, hidx⟩ := ih (turn + 1) (history ++ [e0]) i (Nat.lt_of_succ_lt_succ hi) hok'
      refine ⟨p, r, by rwa [show turn + (i + 1) = turn + 1 + i by omega], ?_⟩
      rw [hstep, show history.length + (i + 1) = (history ++ [e0]).length + i by simp; omega,
        show (turn + (i + 1)) % 2 = (turn + 1 + i) % 2 by rw [show turn + (i + 1) = turn + 1 + i by omega]]
      exact hidx

theorem runTurns_fail_stops (model1 model2 : Participant) (maxChars : Nat)
    (oracle : Nat → String → Except String String) :
    ∀ (k n turn : Nat) (history : List Entry), k < n →
      (∀ t p, t < k → ∃ r, oracle (turn + t) p = Except.ok r) →
      (∀ p r, oracle (turn + k) p ≠ Except.ok r) →
      (runTurns model1 model2 maxChars oracle n turn history).1 =
        (runTurns model1 model2 maxChars oracle k turn history).1 := by
  intro k
  induction k with
  | zero =>
    intro n turn history hn _ hfail
    obtain ⟨n, rfl⟩ := Nat.exists_eq_succ_of_ne_zero (Nat.pos_iff_ne_zero.mp hn)
    simp only [runTurns]
    cases hor : oracle turn (mkUserPrompt maxChars (formatConversationHistory history)) with
    | error e => rfl
    | ok r => exact absurd hor (by simpa using hfail (mkUserPrompt maxChars (formatConversationHistory history)) r)
  | succ k ih =>
    intro n turn history hn hbefore hfail
    obtain ⟨n, rfl⟩ := Nat.exists_eq_succ_of_ne_zero (Nat.not_eq_zero_of_lt hn)
    obtain ⟨r0, hr0⟩ := hbefore 0 (mkUserPrompt maxChars (formatConversationHistory history))
      (Nat.succ_pos k)
    rw [Nat.add_zero] at hr0
    simp only [runTurns, hr0]
    apply ih n (turn + 1) _ (Nat.lt_of_succ_lt_succ hn)
    · intro t p ht
      have := hbefore (t + 1) p (Nat.succ_lt_succ ht)
      rwa [show turn + (t + 1) = turn + 1 + t by omega] at this
    · intro p r
      have := hfail p r
      rwa [show turn + (k + 1) = turn + 1 + k by omega] at this

theorem runTurns_prompts_ok (model1 model2 : Participant) (maxChars : Nat)
    (oracle : Nat → String → Except String String) :
    ∀ (n turn : Nat) (history : List Entry) (i : Nat), i < n →
      (∀ t p, t < n → ∃ r, oracle (turn + t) p = Except.ok r) →
      (runTurns model1 model2 maxChars oracle n turn history).2[i]? =
        some (mkUserPrompt maxChars (formatConversationHistory
          ((runTurns model1 model2 maxChars oracle n turn history).1.take (history.length + i)))) := by
  intro n
  induction n with
  | zero => intro turn history i hi; omega
  | succ n ih =>
    intro turn history i hi hok
    obtain ⟨r0, hr0⟩ := hok 0 (mkUserPrompt maxChars (formatConversationHistory history))
      (Nat.succ_pos n)
    rw [Nat.add_zero] at hr0
    set e0 : Entry := { speaker := (if turn % 2 = 0 then model1 else model2).charName,
                        message := truncateResponse maxChars r0 } with he0
    have hstep1 : (runTurns model1 model2 maxChars oracle (n + 1) turn history).1 =
        (runTurns model1 model2 maxChars oracle n (turn + 1) (history ++ [e0])).1 := by
      simp only [runTurns, hr0]
    have hstep2 : (runTurns model1 model2 maxChars oracle (n + 1) turn history).2 =
        mkUserPrompt maxChars (formatConversationHistory history) ::
          (runTurns model1 model2 maxChars oracle n (turn + 1) (history ++ [e0])).2 := by
      simp only [runTurns, hr0]
    cases i with
    | zero =>
      rw [hstep1, hstep2]
      obtain ⟨rest, hrest⟩ := runTurns_fst_append model1 model2 maxChars oracle n (turn + 1)
        (history ++ [e0])
      rw [hrest, List.append_assoc]
      simp only [Nat.add_zero, List.getElem?_cons_zero]
      rw [List.take_left history ([e0] ++ rest)]
    | succ i =>
      have hok' : ∀ t p, t < n → ∃ r, oracle (turn + 1 + t) p = Except.ok r := fun t p ht => by
        have := hok (t + 1) p (Nat.succ_lt_succ ht)
        rwa [show turn + (t + 1) = turn + 1 + t by omega] at this
      have := ih (turn + 1) (history ++ [e0]) i (Nat.lt_of_succ_lt_succ hi) hok'
      rw [hstep1, hstep2]
      simpa [show history.length + 1 + i = history.length + (i + 1) by omega] using this

/-- C1: for every `turns = N ≥ 0`, a run of `run_conversation` in which every
`get_completion` call succeeds returns a transcript of exactly `N + 1`
entries, whose first entry is the seed with speaker `"Moderator"` and message
equal to the configured initial prompt. -/
theorem run_conversation_success_length (model1 model2 : Participant)
    (initialPrompt : String) (turns maxChars : Nat)
    (oracle : Nat → String → Except String String)
    (htotal : ∀ t p, ∃ r, oracle t p = Except.ok r) :
    (run_conversation model1 model2 initialPrompt turns maxChars oracle).length = turns + 1 ∧
    (run_conversation model1 model2 initialPrompt turns maxChars oracle).head? =
      some { speaker := "Moderator", message := initialPrompt } := by
  constructor
  · have := runTurns_length_ok model1 model2 maxChars oracle turns 0
      [{ speaker := "Moderator", message := initialPrompt }]
      (fun t p _ => htotal (0 + t) p)
    simpa [run_conversation, Nat.add_comm] using this
  · obtain ⟨rest, hrest⟩ := runTurns_fst_append model1 model2 maxChars oracle turns 0
      [{ speaker := "Moderator", message := initialPrompt }]
    simp [run_conversation, hrest]

/-- Witness for C1 at `turns = 3`: a concrete all-succeeding oracle yields a
4-entry transcript headed by the seed. -/
theorem run_conversation_success_length_witness :
    (run_conversation { modelName := "m1", systemPrompt := "s1", charName := "A" }
      { modelName := "m2", systemPrompt := "s2", charName := "B" }
      "topic" 3 10 (fun _ _ => Except.ok "hi")).length = 3 + 1 ∧
    (run_conversation { modelName := "m1", systemPrompt := "s1", charName := "A" }
      { modelName := "m2", systemPrompt := "s2", charName := "B" }
      "topic" 3 10 (fun _ _ => Except.ok "hi")).head? =
      some { speaker := "Moderator", message := "topic" } :=
  run_conversation_success_length _ _ _ _ _ _ (fun _ _ => ⟨"hi", rfl⟩)

theorem length_take_string (s : String) (n : Nat) : (s.take n).length = min n s.length := by
  rw [String.take_eq]
  simp [String.length_data]

theorem truncateResponse_length_of_gt (maxChars : Nat) (response : String)
    (h : maxChars < response.length) :
    (truncateResponse maxChars response).length = maxChars + "...".length := by
  rw [truncateResponse, if_pos h, String.length_append, length_take_string]
  omega

theorem truncateResponse_of_le (maxChars : Nat) (response : String)
    (h : response.length ≤ maxChars) : truncateResponse maxChars response = response := by
  rw [truncateResponse, if_neg (by omega)]

/-- C2: in a run where every completion call succeeds, the speaker of
transcript entry `i + 1` is participant 1's display name when the turn index
`i` is even and participant 2's when it is odd; participant 1 opens. -/
theorem run_conversation_turn_parity (model1 model2 : Participant) (initialPrompt : String)
    (turns maxChars : Nat) (oracle : Nat → String → Except String String) (i : Nat)
    (hi : i < turns) (htotal : ∀ t p, ∃ r, oracle t p = Except.ok r) :
    ∃ e, (run_conversation model1 model2 initialPrompt turns maxChars oracle)[i + 1]? = some e ∧
      e.speaker = (if i % 2 = 0 then model1.charName else model2.charName) := by
  obtain ⟨p, r, _, hidx⟩ := runTurns_getElem_ok model1 model2 maxChars oracle turns 0
    [{ speaker := "Moderator", message := initialPrompt }] i hi (fun t p _ => htotal (0 + t) p)
  refine ⟨{ speaker := (if (0 + i) % 2 = 0 then model1 else model2).charName,
            message := truncateResponse maxChars r }, ?_, ?_⟩
  · rw [run_conversation, show i + 1 =
      List.length [{ speaker := "Moderator", message := initialPrompt : Entry }] + i by simp; omega]
    exact hidx
  · by_cases h2 : i % 2 = 0 <;> simp [h2]

/-- Witness for C2 at `i = 1`, `turns = 3`: the entry at position 2 is spoken
by participant 2. -/
theorem run_conversation_turn_parity_witness :
    ∃ e, (run_conversation { modelName := "m1", systemPrompt := "s1", charName := "A" }
      { modelName := "m2", systemPrompt := "s2", charName := "B" }
      "topic" 3 10 (fun _ _ => Except.ok "hi"))[1 + 1]? = some e ∧
      e.speaker = (if 1 % 2 = 0 then "A" else "B") :=
  run_conversation_turn_parity
    { modelName := "m1", systemPrompt := "s1", charName := "A" }
    { modelName := "m2", systemPrompt := "s2", charName := "B" }
    "topic" 3 10 (fun _ _ => Except.ok "hi") 1 (by omega) (fun _ _ => ⟨"hi", rfl⟩)

/-- C3: in a run where every completion call succeeds, the message stored for
turn `i` is the oracle's response put through the truncation step: when the
response is longer than `max_chars` the stored message is the first
`max_chars` characters followed by the `"..."` marker, so its length is
exactly `max_chars` plus the marker's length; otherwise it is the response
unmodified. -/
theorem run_conversation_truncation (model1 model2 : Participant) (initialPrompt : String)
    (turns maxChars : Nat) (oracle : Nat → String → Except String String) (i : Nat)
    (hi : i < turns) (htotal : ∀ t p, ∃ r, oracle t p = Except.ok r) :
    ∃ p r e, oracle i p = Except.ok r ∧
      (run_conversation model1 model2 initialPrompt turns maxChars oracle)[i + 1]? = some e ∧
      e.message = truncateResponse maxChars r ∧
      (maxChars < r.length → e.message.length = maxChars + "...".length) ∧
      (r.length ≤ maxChars → e.message = r) := by
  obtain ⟨p, r, hpr, hidx⟩ := runTurns_getElem_ok model1 model2 maxChars oracle turns 0
    [{ speaker := "Moderator", message := initialPrompt }] i hi (fun t p _ => htotal (0 + t) p)
  refine ⟨p, r, { speaker := (if (0 + i) % 2 = 0 then model1 else model2).charName,
                  message := truncateResponse maxChars r }, by simpa using hpr, ?_, rfl, ?_, ?_⟩
  · rw [run_conversation, show i + 1 =
      List.length [{ speaker := "Moderator", message := initialPrompt : Entry }] + i by simp; omega]
    exact hidx
  · exact truncateResponse_length_of_gt maxChars r
  · exact truncateResponse_of_le maxChars r

/-- Witness for C3 at `i = 0` with a 7-character response and `max_chars = 5`. -/
theorem run_conversation_truncation_witness :
    ∃ p r e, (fun (_ : Nat) (_ : String) => Except.ok (ε := String) "1234567") 0 p = Except.ok r ∧
      (run_conversation { modelName := "m1", systemPrompt := "s1", charName := "A" }
        { modelName := "m2", systemPrompt := "s2", charName := "B" }
        "topic" 2 5 (fun _ _ => Except.ok "1234567"))[0 + 1]? = some e ∧
      e.message = truncateResponse 5 r ∧
      (5 < r.length → e.message.length = 5 + "...".length) ∧
      (r.length ≤ 5 → e.message = r) :=
  run_conversation_truncation
    { modelName := "m1", systemPrompt := "s1", charName := "A" }
    { modelName := "m2", systemPrompt := "s2", charName := "B" }
    "topic" 2 5 (fun _ _ => Except.ok "1234567") 0 (by omega) (fun _ _ => ⟨"1234567", rfl⟩)

/-- C4: if the completion call for turn `k` fails while all earlier turns
succeeded, the run stops, returns the transcript built so far — equal to the
transcript of a `k`-turn run — and that transcript has exactly `k + 1`
entries (seed plus the `k` completed turns), so no entry for turn `k` or any
later turn is present. -/
theorem run_conversation_failure_abort (model1 model2 : Participant) (initialPrompt : String)
    (turns maxChars : Nat) (oracle : Nat → String → Except String String) (k : Nat)
    (hk : k < turns)
    (hbefore : ∀ t p, t < k → ∃ r, oracle t p = Except.ok r)
    (hfail : ∀ p r, oracle k p ≠ Except.ok r) :
    run_conversation model1 model2 initialPrompt turns maxChars oracle =
      run_conversation model1 model2 initialPrompt k maxChars oracle ∧
    (run_conversation model1 model2 initialPrompt turns maxChars oracle).length = k + 1 := by
  have heq := runTurns_fail_stops model1 model2 maxChars oracle k turns 0
    [{ speaker := "Moderator", message := initialPrompt }] hk
    (fun t p ht => by simpa using hbefore t p ht)
    (fun p r => by simpa using hfail p r)
  have hlen := runTurns_length_ok model1 model2 maxChars oracle k 0
    [{ speaker := "Moderator", message := initialPrompt }]
    (fun t p ht => by simpa using hbefore t p ht)
  constructor
  · rw [run_conversation, run_conversation]
    exact heq
  · rw [run_conversation, heq]
    simpa [Nat.add_comm] using hlen

/-- Witness for C4: a 5-turn run whose oracle fails from turn 2 on yields the
3-entry transcript of the 2-turn run. -/
theorem run_conversation_failure_abort_witness :
    run_conversation { modelName := "m1", systemPrompt := "s1", charName := "A" }
      { modelName := "m2", systemPrompt := "s2", charName := "B" }
      "topic" 5 10 (fun t _ => if t < 2 then Except.ok "hi" else Except.error "boom") =
      run_conversation { modelName := "m1", systemPrompt := "s1", charName := "A" }
        { modelName := "m2", systemPrompt := "s2", charName := "B" }
        "topic" 2 10 (fun t _ => if t < 2 then Except.ok "hi" else Except.error "boom") ∧
    (run_conversation { modelName := "m1", systemPrompt := "s1", charName := "A" }
      { modelName := "m2", systemPrompt := "s2", charName := "B" }
      "topic" 5 10 (fun t _ => if t < 2 then Except.ok "hi" else Except.error "boom")).length =
      2 + 1 :=
  run_conversation_failure_abort _ _ _ 5 10 _ 2 (by omega)
    (fun t p ht => ⟨"hi", by simp [ht]⟩)
    (fun p r h => by simp at h)

theorem formatConversationHistory_eq_lineBlock (history : List Entry) :
    formatConversationHistory history = lineBlock history := by
  have key : ∀ (l : List Entry) (a : String),
      l.foldl (fun formatted e => formatted ++ e.speaker ++ ": " ++ e.message ++ "\n") a =
        a ++ lineBlock l := by
    intro l
    induction l with
    | nil => intro a; simp [lineBlock]
    | cons e rest ih =>
      intro a
      rw [List.foldl_cons, ih, lineBlock]
      simp [String.append_assoc]
  simpa [formatConversationHistory] using key history ""

/-- C7: in a run where every completion call succeeds, the user prompt sent on
turn `i` renders the transcript so far (its first `i + 1` entries) as a flat
block of one `"{speaker}: {message}\n"` line per entry in order, followed by
the instruction asking for a response bounded by `max_chars` characters. -/
theorem sentPrompts_render (model1 model2 : Participant) (initialPrompt : String)
    (turns maxChars : Nat) (oracle : Nat → String → Except String String) (i : Nat)
    (hi : i < turns) (htotal : ∀ t p, ∃ r, oracle t p = Except.ok r) :
    (sentPrompts model1 model2 initialPrompt turns maxChars oracle)[i]? =
      some (("Here's the conversation so far:\n" ++
        lineBlock ((run_conversation model1 model2 initialPrompt turns maxChars oracle).take (i + 1)) ++
        "\n") ++
        ("Please provide your response. Keep it under " ++ toString maxChars ++ " characters:")) := by
  have h := runTurns_prompts_ok model1 model2 maxChars oracle turns 0
    [{ speaker := "Moderator", message := initialPrompt }] i hi (fun t p _ => htotal (0 + t) p)
  rw [show List.length [{ speaker := "Moderator", message := initialPrompt : Entry }] + i = i + 1
    by simp; omega] at h
  rw [sentPrompts]
  rw [h, mkUserPrompt, formatConversationHistory_eq_lineBlock, run_conversation]

/-- Witness for C7 at `i = 0`, `turns = 1`. -/
theorem sentPrompts_render_witness :
    (sentPrompts { modelName := "m1", systemPrompt := "s1", charName := "A" }
      { modelName := "m2", systemPrompt := "s2", charName := "B" }
      "topic" 1 10 (fun _ _ => Except.ok "hi"))[0]? =
      some (("Here's the conversation so far:\n" ++
        lineBlock ((run_conversation { modelName := "m1", systemPrompt := "s1", charName := "A" }
          { modelName := "m2", systemPrompt := "s2", charName := "B" }
          "topic" 1 10 (fun _ _ => Except.ok "hi")).take (0 + 1)) ++
        "\n") ++
        ("Please provide your response. Keep it under " ++ toString 10 ++ " characters:")) :=
  sentPrompts_render
    { modelName := "m1", systemPrompt := "s1", charName := "A" }
    { modelName := "m2", systemPrompt := "s2", charName := "B" }
    "topic" 1 10 (fun _ _ => Except.ok "hi") 0 (by omega) (fun _ _ => ⟨"hi", rfl⟩)

/-! ## OpenAI key validation (C9) -/

/-- C9 counterexample: with explicit argument `""` (which is not `None`) and
environment key `"sk-test"`, the claim's resolution rule yields the empty
key and mandates a validation error, but construction succeeds because
Python's `or` also falls back to the environment on the empty string. -/
theorem openAI_validation_counterexample :
    claimConstructionRaises (some "") (some "sk-test") = true ∧
    openAIConstructionOk (some "") (some "sk-test") = true := by
  constructor <;> rfl

/-- C9 amended: construction raises if and only if the resolved key — the
explicit argument when it is a nonempty string, otherwise the
`OPENAI_API_KEY` environment value — is absent, is empty or all-whitespace,
contains a space or tab character, or does not start with `"sk-"`. -/
theorem openAI_validation_iff (apiKey envKey : Option String) :
    openAIConstructionOk apiKey envKey = false ↔
      (resolveApiKey apiKey envKey = none ∨
        ∃ k, resolveApiKey apiKey envKey = some k ∧
          (k.data.all (fun c => c.isWhitespace) = true ∨ k.data.contains ' ' = true ∨
            k.data.contains '\t' = true ∨ (k.data.take 3 == "sk-".data) = false)) := by
  cases h : resolveApiKey apiKey envKey with
  | none => simp [openAIConstructionOk, h]
  | some k =>
    simp only [openAIConstructionOk, h, reduceCtorEq, false_or, Option.some.injEq]
    constructor
    · intro hfalse
      refine ⟨k, rfl, ?_⟩
      rw [apiKeyWellFormed] at hfalse
      cases ha : k.data.all (fun c => c.isWhitespace) with
      | true => exact Or.inl rfl
      | false =>
        cases hb : k.data.contains ' ' with
        | true => exact Or.inr (Or.inl rfl)
        | false =>
          cases hc : k.data.contains '\t' with
          | true => exact Or.inr (Or.inr (Or.inl rfl))
          | false =>
            cases hd : (k.data.take 3 == "sk-".data) with
            | false => exact Or.inr (Or.inr (Or.inr rfl))
            | true =>
              rw [ha, hb, hc, hd] at hfalse
              simp at hfalse
    · rintro ⟨k', rfl, hbad⟩
      rw [apiKeyWellFormed]
      rcases hbad with h1 | h1 | h1 | h1 <;> rw [h1] <;> simp

/-! ## Completion error surfacing (C5) -/

/-- C5 counterexample: when the generate request returns a well-formed HTTP
response whose JSON object lacks the `"response"` key, `get_completion`
raises a bare `KeyError`, which reaches the caller unwrapped rather than as
the completion-error kind. -/
theorem ollama_error_wrapping_counterexample :
    ollamaGetCompletion
      { tagsResult := Except.ok (some ["llama3"]),
        pullResult := fun _ => Except.ok (),
        generateResult := fun _ => Except.ok none } "sys" "user" "llama3" =
      Except.error (PyErr.keyError "response") ∧
    isOllamaCompletionWrapped (PyErr.keyError "response") = false := by
  constructor <;> rfl

/-- C5 amended: each failure cause inside a provider `get_completion` call
surfaces to the caller as one specific error, and each success returns the
completion text, so no partial result is ever returned.  For the Ollama
client: a transport (`RequestException`) failure of the model-availability
check — whether of the tags request or of the pull request — surfaces
wrapped in the availability message; with availability established, a
transport failure of the generate request surfaces wrapped in the
completion-error message; a decoded tags response without a `"models"` key,
or a decoded generate response without a `"response"` key, escapes as an
unwrapped `KeyError`.  The OpenAI and Anthropic clients wrap every failure
whatsoever in their respective completion-error messages. -/
theorem client_error_surface (env : OllamaEnv) (systemPrompt userPrompt model : String) :
    (∀ m, env.tagsResult = Except.error m →
      ollamaGetCompletion env systemPrompt userPrompt model =
        Except.error (PyErr.exception ("Error ensuring model availability: " ++ m))) ∧
    (env.tagsResult = Except.ok none →
      ollamaGetCompletion env systemPrompt userPrompt model =
        Except.error (PyErr.keyError "models")) ∧
    (∀ models m, env.tagsResult = Except.ok (some models) → model ∉ models →
      env.pullResult model = Except.error m →
      ollamaGetCompletion env systemPrompt userPrompt model =
        Except.error (PyErr.exception ("Error ensuring model availability: " ++ m))) ∧
    (∀ m, ensure_model env model = Except.ok () →
      env.generateResult (systemPrompt ++ "\n\n" ++ userPrompt) = Except.error m →
      ollamaGetCompletion env systemPrompt userPrompt model =
        Except.error (PyErr.exception ("Error getting completion from Ollama: " ++ m))) ∧
    (ensure_model env model = Except.ok () →
      env.generateResult (systemPrompt ++ "\n\n" ++ userPrompt) = Except.ok none →
      ollamaGetCompletion env systemPrompt userPrompt model =
        Except.error (PyErr.keyError "response")) ∧
    (∀ r, ensure_model env model = Except.ok () →
      env.generateResult (systemPrompt ++ "\n\n" ++ userPrompt) = Except.ok (some r) →
      ollamaGetCompletion env systemPrompt userPrompt model = Except.ok r) ∧
    (∀ m, openAIGetCompletion (Except.error m) =
      Except.error (PyErr.exception ("Error getting completion from OpenAI: " ++ m))) ∧
    (∀ r, openAIGetCompletion (Except.ok r) = Except.ok r) ∧
    (∀ m, anthropicGetCompletion (Except.error m) =
      Except.error (PyErr.exception ("Error getting completion from Anthropic: " ++ m))) ∧
    (∀ r, anthropicGetCompletion (Except.ok r) = Except.ok r) := by
  refine ⟨?_, ?_, ?_, ?_, ?_, ?_, fun m => rfl, fun r => rfl, fun m => rfl, fun r => rfl⟩
  · intro m htags
    simp [ollamaGetCompletion, ensure_model, htags]
  · intro htags
    simp [ollamaGetCompletion, ensure_model, htags]
  · intro models m htags hmem hpull
    simp [ollamaGetCompletion, ensure_model, htags, hmem, hpull]
  · intro m hens hgen
    simp [ollamaGetCompletion, hens, hgen]
  · intro hens hgen
    simp [ollamaGetCompletion, hens, hgen]
  · intro r hens hgen
    simp [ollamaGetCompletion, hens, hgen]

/-- Witness for the amended C5: one concrete environment per failure cause —
tags transport failure, tags JSON without `"models"`, pull transport failure
for an absent model, generate transport failure, generate JSON without
`"response"`, generate success — plus wrapped OpenAI and Anthropic failures
and their success pass-throughs. -/
theorem client_error_surface_witness :
    ollamaGetCompletion
      { tagsResult := Except.error "down", pullResult := fun _ => Except.ok (),
        generateResult := fun _ => Except.ok (some "resp") } "sys" "user" "m" =
      Except.error (PyErr.exception "Error ensuring model availability: down") ∧
    ollamaGetCompletion
      { tagsResult := Except.ok none, pullResult := fun _ => Except.ok (),
        generateResult := fun _ => Except.ok (some "resp") } "sys" "user" "m" =
      Except.error (PyErr.keyError "models") ∧
    ollamaGetCompletion
      { tagsResult := Except.ok (some ["x"]), pullResult := fun _ => Except.error "pull failed",
        generateResult := fun _ => Except.ok (some "resp") } "sys" "user" "m" =
      Except.error (PyErr.exception "Error ensuring model availability: pull failed") ∧
    ollamaGetCompletion
      { tagsResult := Except.ok (some ["m"]), pullResult := fun _ => Except.ok (),
        generateResult := fun _ => Except.error "gen failed" } "sys" "user" "m" =
      Except.error (PyErr.exception "Error getting completion from Ollama: gen failed") ∧
    ollamaGetCompletion
      { tagsResult := Except.ok (some ["m"]), pullResult := fun _ => Except.ok (),
        generateResult := fun _ => Except.ok none } "sys" "user" "m" =
      Except.error (PyErr.keyError "response") ∧
    ollamaGetCompletion
      { tagsResult := Except.ok (some ["m"]), pullResult := fun _ => Except.ok (),
        generateResult := fun _ => Except.ok (some "resp") } "sys" "user" "m" =
      Except.ok "resp" ∧
    openAIGetCompletion (Except.error "boom") =
      Except.error (PyErr.exception "Error getting completion from OpenAI: boom") ∧
    openAIGetCompletion (Except.ok "resp") = Except.ok "resp" ∧
    anthropicGetCompletion (Except.error "boom") =
      Except.error (PyErr.exception "Error getting completion from Anthropic: boom") ∧
    anthropicGetCompletion (Except.ok "resp") = Except.ok "resp" :=
  ⟨(client_error_surface
      { tagsResult := Except.error "down", pullResult := fun _ => Except.ok (),
        generateResult := fun _ => Except.ok (some "resp") } "sys" "user" "m").1 "down" rfl,
   (client_error_surface
      { tagsResult := Except.ok none, pullResult := fun _ => Except.ok (),
        generateResult := fun _ => Except.ok (some "resp") } "sys" "user" "m").2.1 rfl,
   (client_error_surface
      { tagsResult := Except.ok (some ["x"]), pullResult := fun _ => Except.error "pull failed",
        generateResult := fun _ => Except.ok (some "resp") } "sys" "user" "m").2.2.1
     ["x"] "pull failed" rfl (by decide) rfl,
   (client_error_surface
      { tagsResult := Except.ok (some ["m"]), pullResult := fun _ => Except.ok (),
        generateResult := fun _ => Except.error "gen failed" } "sys" "user" "m").2.2.2.1
     "gen failed" rfl rfl,
   (client_error_surface
      { tagsResult := Except.ok (some ["m"]), pullResult := fun _ => Except.ok (),
        generateResult := fun _ => Except.ok none } "sys" "user" "m").2.2.2.2.1
     rfl rfl,
   (client_error_surface
      { tagsResult := Except.ok (some ["m"]), pullResult := fun _ => Except.ok (),
        generateResult := fun _ => Except.ok (some "resp") } "sys" "user" "m").2.2.2.2.2.1
     "resp" rfl rfl,
   (client_error_surface
      { tagsResult := Except.ok (some ["m"]), pullResult := fun _ => Except.ok (),
        generateResult := fun _ => Except.ok (some "resp") } "sys" "user" "m").2.2.2.2.2.2.1
     "boom",
   (client_error_surface
      { tagsResult := Except.ok (some ["m"]), pullResult := fun _ => Except.ok (),
        generateResult := fun _ => Except.ok (some "resp") } "sys" "user" "m").2.2.2.2.2.2.2.1
     "resp",
   (client_error_surface
      { tagsResult := Except.ok (some ["m"]), pullResult := fun _ => Except.ok (),
        generateResult := fun _ => Except.ok (some "resp") } "sys" "user" "m").2.2.2.2.2.2.2.2.1
     "boom",
   (client_error_surface
      { tagsResult := Except.ok (some ["m"]), pullResult := fun _ => Except.ok (),
        generateResult := fun _ => Except.ok (some "resp") } "sys" "user" "m").2.2.2.2.2.2.2.2.2
     "resp"⟩


/-! ## Link extraction (C10) -/

theorem keepFirsts_congr (seen1 seen2 l : List String)
    (h : ∀ x, x ∈ seen1 ↔ x ∈ seen2) : keepFirsts seen1 l = keepFirsts seen2 l := by
  induction l generalizing seen1 seen2 with
  | nil => rfl
  | cons x xs ih =>
    rw [keepFirsts, keepFirsts]
    by_cases hx : x ∈ seen1
    · rw [if_pos hx, if_pos ((h x).mp hx)]
      exact ih seen1 seen2 h
    · rw [if_neg hx, if_neg (fun c => hx ((h x).mpr c))]
      congr 1
      exact ih (x :: seen1) (x :: seen2) (fun y => by simp [h y])

theorem extractLinksLoop_eq (urljoin : String → String → String) (pageUrl : String) :
    ∀ (hrefs links : List String),
      extractLinksLoop urljoin pageUrl hrefs links =
        links ++ keepFirsts links (resolvedHrefs urljoin pageUrl hrefs) := by
  intro hrefs
  induction hrefs with
  | nil => intro links; simp [extractLinksLoop, resolvedHrefs, keepFirsts]
  | cons href rest ih =>
    intro links
    rw [extractLinksLoop]
    by_cases hskip : skipHref href
    · rw [if_pos hskip, ih]
      have : resolvedHrefs urljoin pageUrl (href :: rest) = resolvedHrefs urljoin pageUrl rest := by
        simp [resolvedHrefs, hskip]
      rw [this]
    · rw [if_neg hskip]
      have hres : resolvedHrefs urljoin pageUrl (href :: rest) =
          dropFragment (urljoin pageUrl href) :: resolvedHrefs urljoin pageUrl rest := by
        simp [resolvedHrefs, hskip]
      by_cases hmem : dropFragment (urljoin pageUrl href) ∈ links
      · rw [if_pos hmem, ih, hres, keepFirsts, if_pos hmem]
      · rw [if_neg hmem, ih, hres, keepFirsts, if_neg hmem,
          keepFirsts_congr (links ++ [dropFragment (urljoin pageUrl href)])
            (dropFragment (urljoin pageUrl href) :: links)
            (resolvedHrefs urljoin pageUrl rest)
            (fun y => by simp [List.mem_append, List.mem_cons, or_comm])]
        simp

theorem keepFirsts_nodup_disjoint (l : List String) :
    ∀ seen, (keepFirsts seen l).Nodup ∧ ∀ x ∈ keepFirsts seen l, x ∉ seen := by
  induction l with
  | nil => intro seen; simp [keepFirsts]
  | cons x xs ih =>
    intro seen
    rw [keepFirsts]
    by_cases hx : x ∈ seen
    · rw [if_pos hx]; exact ih seen
    · rw [if_neg hx]
      obtain ⟨hnd, hdisj⟩ := ih (x :: seen)
      refine ⟨List.nodup_cons.mpr ⟨fun hc => (hdisj x hc) (List.mem_cons_self x seen), hnd⟩, ?_⟩
      intro y hy
      rcases List.mem_cons.mp hy with rfl | hy'
      · exact hx
      · intro hyseen
        exact hdisj y hy' (List.mem_cons_of_mem _ hyseen)

theorem keepFirsts_subset (l : List String) :
    ∀ seen x, x ∈ keepFirsts seen l → x ∈ l := by
  induction l with
  | nil => intro seen x hx; simp [keepFirsts] at hx
  | cons y ys ih =>
    intro seen x hx
    rw [keepFirsts] at hx
    by_cases hy : y ∈ seen
    · rw [if_pos hy] at hx
      exact List.mem_cons_of_mem _ (ih seen x hx)
    · rw [if_neg hy] at hx
      rcases List.mem_cons.mp hx with rfl | hx'
      · exact List.mem_cons_self x ys
      · exact List.mem_cons_of_mem _ (ih (y :: seen) x hx')

/-- C10: the link list produced by `_extract_links` is exactly the
first-occurrence deduplication of the skipped-scheme-filtered hrefs, each
resolved against the page URL and cut at the first `'#'` (so relative hrefs
are stored absolute, in first-occurrence document order); the list holds no
duplicates and no stored URL contains a fragment separator. -/
theorem extract_links_spec (urljoin : String → String → String) (pageUrl : String)
    (hrefs : List String) :
    extract_links urljoin pageUrl hrefs =
      keepFirsts [] (resolvedHrefs urljoin pageUrl hrefs) ∧
    (extract_links urljoin pageUrl hrefs).Nodup ∧
    (extract_links urljoin pageUrl hrefs).all (fun l => l.data.all (fun c => c != '#')) = true := by
  have heq : extract_links urljoin pageUrl hrefs =
      keepFirsts [] (resolvedHrefs urljoin pageUrl hrefs) := by
    rw [extract_links, extractLinksLoop_eq]
    simp
  refine ⟨heq, ?_, ?_⟩
  · rw [heq]
    exact (keepFirsts_nodup_disjoint (resolvedHrefs urljoin pageUrl hrefs) []).1
  · rw [heq, List.all_eq_true]
    intro l hl
    have hmem : l ∈ resolvedHrefs urljoin pageUrl hrefs :=
      keepFirsts_subset (resolvedHrefs urljoin pageUrl hrefs) [] l hl
    rw [resolvedHrefs] at hmem
    obtain ⟨h, _, rfl⟩ := List.mem_map.mp hmem
    rw [dropFragment]
    exact List.all_takeWhile

/-! ## Transcript round trip (C8) -/

theorem decodeEntries_map (history : List Entry) :
    decodeEntries (history.map entryToJson) = some history := by
  induction history with
  | nil => rfl
  | cons e rest ih =>
    rw [List.map_cons, decodeEntries, ih]
    have : jsonToEntry (entryToJson e) = some e := by
      rw [entryToJson, jsonToEntry]
      simp [getField]
    rw [this]

/-- C8: serializing a transcript into the persisted debate object under the
`"debate_log"` key and deserializing that JSON reconstructs an identical
ordered sequence of `{speaker, message}` pairs. -/
theorem debate_log_round_trip (topic name1 mdl1 pers1 name2 mdl2 pers2 : String)
    (turns maxChars : Nat) (history : List Entry) :
    decodeDebateLog
      (debateOutputJson topic name1 mdl1 pers1 name2 mdl2 pers2 turns maxChars history) =
      some history := by
  rw [debateOutputJson, decodeDebateLog]
  simp [getField, decodeEntries_map]

/-! ## Output file naming (C6) -/

theorem toDigitsCore_eq_digits (fuel : Nat) :
    ∀ (n : Nat) (ds : List Char), 0 < n → n ≤ fuel →
      Nat.toDigitsCore 10 fuel n ds = ((Nat.digits 10 n).map Nat.digitChar).reverse ++ ds := by
  induction fuel with
  | zero => intro n ds hn hfuel; omega
  | succ fuel ih =>
    intro n ds hn hfuel
    rw [Nat.toDigitsCore]
    by_cases hdiv : n / 10 = 0
    · have h10 : n < 10 := (Nat.div_eq_zero_iff (by norm_num)).mp hdiv
      rw [if_pos hdiv, Nat.digits_def' (by norm_num : (1:ℕ) < 10) hn, hdiv, Nat.digits_zero]
      simp
    · have hlt : n / 10 < n := Nat.div_lt_self hn (by norm_num)
      rw [if_neg hdiv,
        ih (n / 10) (Nat.digitChar (n % 10) :: ds) (Nat.pos_of_ne_zero hdiv) (by omega),
        Nat.digits_def' (by norm_num : (1:ℕ) < 10) hn]
      simp [List.append_assoc]

theorem natRepr_eq_digits (n : Nat) (hn : 0 < n) :
    Nat.repr n = (((Nat.digits 10 n).map Nat.digitChar).reverse).asString := by
  rw [Nat.repr, Nat.toDigits, toDigitsCore_eq_digits (n + 1) n [] hn (by omega), List.append_nil]

theorem digitChar_inj_lt : ∀ a, a < 10 → ∀ b, b < 10 →
    Nat.digitChar a = Nat.digitChar b → a = b := by decide

theorem map_digitChar_inj : ∀ (l1 l2 : List Nat), (∀ d ∈ l1, d < 10) → (∀ d ∈ l2, d < 10) →
    l1.map Nat.digitChar = l2.map Nat.digitChar → l1 = l2 := by
  intro l1
  induction l1 with
  | nil =>
    intro l2 _ _ h
    cases l2 with
    | nil => rfl
    | cons b bs => simp at h
  | cons a as ih =>
    intro l2 h1 h2 h
    cases l2 with
    | nil => simp at h
    | cons b bs =>
      simp only [List.map_cons, List.cons.injEq] at h
      obtain ⟨hab, hrest⟩ := h
      have ha := h1 a (List.mem_cons_self a as)
      have hb := h2 b (List.mem_cons_self b bs)
      rw [digitChar_inj_lt a ha b hb hab,
        ih bs (fun d hd => h1 d (List.mem_cons_of_mem _ hd))
          (fun d hd => h2 d (List.mem_cons_of_mem _ hd)) hrest]

theorem natRepr_pos_ne_zero_repr (n : Nat) (hn : 0 < n) : Nat.repr n ≠ "0" := by
  intro h
  rw [natRepr_eq_digits n hn] at h
  have h1 : (((Nat.digits 10 n).map Nat.digitChar).reverse) = ['0'] := List.asString_inj.mp h
  have h2 : (Nat.digits 10 n).map Nat.digitChar = ['0'] := by
    have := congrArg List.reverse h1
    simpa using this
  have h4 : Nat.digits 10 n = [0] := by
    apply map_digitChar_inj
    · exact fun d hd => Nat.digits_lt_base (by norm_num) hd
    · intro d hd
      simp at hd
      omega
    · simpa using h2
  have h5 := Nat.ofDigits_digits 10 n
  rw [h4] at h5
  simp [Nat.ofDigits] at h5
  omega

theorem natRepr_injective : Function.Injective Nat.repr := by
  intro m n h
  rcases Nat.eq_zero_or_pos m with rfl | hm
  · rcases Nat.eq_zero_or_pos n with rfl | hn
    · rfl
    · exact absurd h.symm (natRepr_pos_ne_zero_repr n hn)
  · rcases Nat.eq_zero_or_pos n with rfl | hn
    · exact absurd h (natRepr_pos_ne_zero_repr m hm)
    · rw [natRepr_eq_digits m hm, natRepr_eq_digits n hn] at h
      have h1 := List.asString_inj.mp h
      have h2 := congrArg List.reverse h1
      simp only [List.reverse_reverse] at h2
      have h3 := map_digitChar_inj _ _
        (fun d hd => Nat.digits_lt_base (by norm_num) hd)
        (fun d hd => Nat.digits_lt_base (by norm_num) hd) h2
      exact Nat.digits.injective 10 h3

theorem matchesDebateGlob_sandwich (s : String) :
    matchesDebateGlob ("debate_" ++ s ++ ".json") = true := by
  rw [matchesDebateGlob]
  have h1 : (("debate_" ++ s ++ ".json").data).take 7 = "debate_".data := by
    simp only [String.data_append, List.append_assoc]
    exact List.take_left' rfl
  have h2 : (("debate_" ++ s ++ ".json").data).reverse.take 5 = ".json".data.reverse := by
    simp only [String.data_append, List.reverse_append]
    exact List.take_left' rfl
  rw [h1, h2]
  simp

/-- C6 counterexample: with the single existing output file `debate_2.json`,
the code counts one matching file and chooses `debate_2.json` again — the
chosen name collides with an existing debate output file. -/
theorem chooseOutputFile_counterexample :
    chooseOutputFile ["debate_2.json"] = "debate_2.json" ∧
    "debate_2.json" ∈ ["debate_2.json"] := by
  refine ⟨?_, by simp⟩
  rfl

/-- C6 amended: the chosen filename is `debate_{m+1}.json` where `m` counts
the existing files matching `debate_*.json`; when those files are exactly
`debate_1.json` through `debate_n.json` (the contiguous states the program
itself produces), the chosen name is `debate_{n+1}.json`, which differs from
every existing file, so no prior run's file is overwritten.  With gaps in the
numeric suffixes the choice can collide (see the counterexample). -/
theorem chooseOutputFile_fresh (existing : List String) (n : Nat)
    (h : existing = canonicalDebateFiles n) :
    chooseOutputFile existing = "debate_" ++ Nat.repr (n + 1) ++ ".json" ∧
    chooseOutputFile existing ∉ existing := by
  subst h
  have hfilter : (canonicalDebateFiles n).filter matchesDebateGlob = canonicalDebateFiles n := by
    rw [List.filter_eq_self]
    intro a ha
    rw [canonicalDebateFiles] at ha
    obtain ⟨i, _, rfl⟩ := List.mem_map.mp ha
    exact matchesDebateGlob_sandwich (Nat.repr (i + 1))
  have hchoose : chooseOutputFile (canonicalDebateFiles n) =
      "debate_" ++ Nat.repr (n + 1) ++ ".json" := by
    rw [chooseOutputFile, hfilter, canonicalDebateFiles, List.length_map, List.length_range]
  refine ⟨hchoose, ?_⟩
  rw [hchoose, canonicalDebateFiles]
  intro hmem
  obtain ⟨i, hi, heqs⟩ := List.mem_map.mp hmem
  rw [List.mem_range] at hi
  have hdata := congrArg String.data heqs
  simp only [String.data_append, List.append_assoc] at hdata
  have h2 := List.append_cancel_right (List.append_cancel_left hdata)
  have h3 : Nat.repr (i + 1) = Nat.repr (n + 1) := String.ext h2
  have := natRepr_injective h3
  omega

/-- Witness for the amended C6 at `n = 2`: with existing files
`debate_1.json`, `debate_2.json` the chosen name is `debate_3.json`, fresh. -/
theorem chooseOutputFile_fresh_witness :
    chooseOutputFile (canonicalDebateFiles 2) = "debate_" ++ Nat.repr (2 + 1) ++ ".json" ∧
    chooseOutputFile (canonicalDebateFiles 2) ∉ canonicalDebateFiles 2 :=
  chooseOutputFile_fresh (canonicalDebateFiles 2) 2 rfl

end LlmEng
